import Mathlib

/-!
Shallow embedding of the step-sequencer engine (chord parser, step renderer,
lookahead scheduler, transport controls) and proofs about its behaviour.

The embedding follows the primary source file of the repository. Times are
rationals in seconds (engine clock) or milliseconds (wall clock and MIDI
timestamps). Note numbers are integers, step indices are integers (the
count-in uses negative steps), chord indices are naturals.

Reads of browser state (the audio-mode radio, the three style selectors, the
connected MIDI output, the two clocks, and the Math.random draws used by the
keys arpeggio) are passed in an explicit environment record. Internal-synth
calls are recorded as events carrying the MIDI note number; the source passes
the converted frequency, a lossless bijective conversion that no claim
inspects.
-/

/-- Chord record as produced by parseChord: display name, root pitch class,
interval list. -/
structure Chord where
  name : String
  rootVal : ℕ
  intervals : List ℕ
  deriving DecidableEq, Repr, Inhabited

/-- Fixed note table mapping normalized root spellings to pitch classes. -/
def NOTES : List (String × ℕ) :=
  [("C", 0), ("C#", 1), ("Db", 1), ("D", 2), ("D#", 3), ("Eb", 3), ("E", 4),
   ("F", 5), ("F#", 6), ("Gb", 6), ("G", 7), ("G#", 8), ("Ab", 8), ("A", 9),
   ("A#", 10), ("Bb", 10), ("B", 11)]

/-- Whether the first list occurs as a contiguous block at the head of the
second list; models the initial-segment part of the JS includes check. -/
def headMatch : List Char → List Char → Bool
  | [], _ => true
  | _ :: _, [] => false
  | a :: as, b :: bs => a = b && headMatch as bs

/-- Substring containment on character lists; models the JS includes method. -/
def hasSub (needle : List Char) (hay : List Char) : Bool :=
  headMatch needle hay ||
    (match hay with
     | [] => false
     | _ :: t => hasSub needle t)

/-- Chord parser. Root length is 2 when the second character is a sharp sign
or a letter b of either case, else 1; the root is case-normalized and looked
up in NOTES with default pitch class 0; quality is minor iff the lowercased
residual contains the letter m but not the substring maj. -/
def parseChord (chordStr : String) : Chord :=
  let cs := chordStr.toList
  let rootLen : ℕ :=
    if cs.length > 1 then
      let c2 := cs.getD 1 ' '
      if c2 = '#' ∨ c2.toLower = 'b' then 2 else 1
    else 1
  let rootRaw := cs.take rootLen
  let rootKey : String :=
    match rootRaw with
    | [] => ""
    | c :: rest => String.mk (c.toUpper :: rest.map Char.toLower)
  let rootVal := (NOTES.lookup rootKey).getD 0
  let extension := (cs.drop rootLen).map Char.toLower
  let quality : String :=
    if hasSub ['m'] extension ∧ ¬ hasSub ['m', 'a', 'j'] extension
    then "min" else "maj"
  let displayName := rootKey ++ String.mk extension
  let intervals : List ℕ := if quality = "min" then [0, 3, 7] else [0, 4, 7]
  { name := displayName, rootVal := rootVal, intervals := intervals }

/-- Environment of browser reads for one step: audio mode, MIDI connection,
the three style selectors, the two clocks sampled at dispatch, and the three
random draws consumed by the keys arpeggio branch. -/
structure Env where
  mode : String
  midiConnected : Bool
  dStyle : String
  bStyle : String
  kStyle : String
  wallNow : ℚ
  engineNow : ℚ
  rand1 : ℚ
  rand2 : ℚ
  rand3 : ℚ
  deriving DecidableEq, Repr

/-- MIDI timestamp for an engine-clock time: wall-now plus the engine delta
converted from seconds to milliseconds. -/
def getMidiTime (env : Env) (audioTime : ℚ) : ℚ :=
  env.wallNow + (audioTime - env.engineNow) * 1000

/-- Events dispatched by the step renderer and the transport controls. MIDI
sends carry an optional timestamp in milliseconds (the stop sweep sends
without timestamp); internal-synth triggers carry the engine time. -/
inductive Ev where
  | metronome (time : ℚ) (isDownbeat : Bool)
  | midi (status : ℕ) (note : ℤ) (velocity : ℕ) (timestamp : Option ℚ)
  | kick (time : ℚ)
  | snare (time : ℚ)
  | hat (time : ℚ)
  | bassTone (note : ℤ) (time : ℚ) (duration : ℚ)
  | keysTone (note : ℤ) (time : ℚ) (duration : ℚ)
  deriving DecidableEq, Repr

/-- Arguments captured for the deferred visual update of one step. -/
structure UiUpdate where
  time : ℚ
  chordName : String
  stepIndex : ℤ
  deriving DecidableEq, Repr

/-- Keys note dispatch: MIDI on/off pair at velocity 90 with the off at
timestamp plus duration in milliseconds, or an internal FM trigger. -/
def triggerKeyNote (env : Env) (note : ℤ) (time : ℚ) (duration : ℚ) : List Ev :=
  if env.mode = "midi" ∧ env.midiConnected then
    let timestamp := getMidiTime env time
    [Ev.midi 0x9B note 90 (some timestamp),
     Ev.midi 0x8B note 0 (some (timestamp + duration * 1000))]
  else if env.mode = "internal" then
    [Ev.keysTone note time duration]
  else []

/-- Named 16-step drum rows. -/
def DRUM_PATTERNS : List (String × List ℕ) :=
  [("basic",  [1,0,3,0, 2,0,3,0, 1,0,3,1, 2,0,3,0]),
   ("four",   [1,3,1,3, 1,3,1,3, 1,3,1,3, 1,3,1,3]),
   ("hiphop", [1,0,3,0, 0,0,2,0, 0,1,3,0, 2,0,3,0]),
   ("click",  [3,0,0,0, 3,0,0,0, 3,0,0,0, 3,0,0,0]),
   ("mute",   [0,0,0,0, 0,0,0,0, 0,0,0,0, 0,0,0,0])]

/-- Bass register fold: up 12 when below 48, then down 12 when above 72;
mirrors the two sequential conditionals in the bass section of playStep. -/
def foldBass (rootNote : ℤ) : ℤ :=
  let r1 := if rootNote < 48 then rootNote + 12 else rootNote
  if r1 > 72 then r1 - 12 else r1

/-- Keys register fold: down 12 when above 72; no lower fold. -/
def foldKeys (keyRoot : ℤ) : ℤ :=
  if keyRoot > 72 then keyRoot - 12 else keyRoot

/-- Step renderer. Returns the captured visual-update arguments and the list
of dispatched events, in source order drums, bass, keys. The three bass style
tests of the source are sequential ifs over one selector value, hence
mutually exclusive and rendered here as an if chain. -/
def playStep (env : Env) (currentStep : ℤ) (currentChordIndex : ℕ)
    (chordProgression : List Chord) (time : ℚ) : UiUpdate × List Ev :=
  let capturedStep := currentStep
  let currentChord : Option Chord :=
    if 0 < chordProgression.length then
      some (chordProgression.getD (currentChordIndex % chordProgression.length) default)
    else none
  let capturedChordName : String :=
    match currentChord with
    | some c => c.name
    | none => "--"
  let ui : UiUpdate := { time := time, chordName := capturedChordName, stepIndex := capturedStep }
  if capturedStep < 0 then
    let relativeStep := capturedStep + 16
    (ui, if relativeStep % 4 = 0 then [Ev.metronome time (relativeStep == 0)] else [])
  else
    match currentChord with
    | none => (ui, [])
    | some currentChord =>
      let midiTime := getMidiTime env time
      let drumRow := (DRUM_PATTERNS.lookup env.dStyle).getD ((DRUM_PATTERNS.lookup "mute").getD [])
      let hit := drumRow.getD capturedStep.toNat 0
      let drumEvs : List Ev :=
        if 0 < hit then
          if env.mode = "midi" ∧ env.midiConnected then
            let note : ℤ := if hit = 1 then 36 else if hit = 2 then 38 else 42
            [Ev.midi 0x99 note 100 (some midiTime),
             Ev.midi 0x89 note 0 (some (midiTime + 50))]
          else if env.mode = "internal" then
            if hit = 1 then [Ev.kick time]
            else if hit = 2 then [Ev.snare time]
            else if hit = 3 then [Ev.hat time]
            else []
          else []
        else []
      let rootNote0 : ℤ := foldBass (60 + (currentChord.rootVal : ℤ) - 12)
      let bassSel : ℤ × Bool :=
        if env.bStyle = "root" ∧ (capturedStep = 0 ∨ capturedStep = 8) then
          (rootNote0, true)
        else if env.bStyle = "pumping" ∧ capturedStep % 2 = 0 then
          (rootNote0, true)
        else if env.bStyle = "arpeggio" ∧ capturedStep % 2 = 0 then
          let arpPattern : List ℕ := [0, 0, 1, 1, 2, 2, 1, 1]
          let interval := currentChord.intervals.getD (arpPattern.getD ((capturedStep / 2) % 8).toNat 0) 0
          (rootNote0 + (interval : ℤ), true)
        else (rootNote0, false)
      let rootNote := bassSel.1
      let playBass := bassSel.2
      let bassEvs : List Ev :=
        if env.bStyle ≠ "mute" ∧ playBass then
          if env.mode = "midi" ∧ env.midiConnected then
            [Ev.midi 0x9A rootNote 100 (some midiTime),
             Ev.midi 0x8A rootNote 0 (some (midiTime + 200))]
          else if env.mode = "internal" then
            [Ev.bassTone rootNote time 0.3]
          else []
        else []
      let keyRoot : ℤ := foldKeys (60 + (currentChord.rootVal : ℤ))
      let keysEvs : List Ev :=
        if env.kStyle ≠ "mute" then
          if env.kStyle = "chords" ∧ capturedStep = 0 then
            currentChord.intervals.flatMap (fun int => triggerKeyNote env (keyRoot + (int : ℤ)) time 1.5)
          else if env.kStyle = "stabs" ∧ (capturedStep = 4 ∨ capturedStep = 12) then
            currentChord.intervals.flatMap (fun int => triggerKeyNote env (keyRoot + (int : ℤ)) time 0.2)
          else if env.kStyle = "arpeggio" then
            if env.rand1 > 0.4 then
              let interval := currentChord.intervals.getD (Int.toNat ⌊env.rand2 * (currentChord.intervals.length : ℚ)⌋) 0
              let octaveOffset : ℤ := if env.rand3 > 0.8 then 12 else 0
              triggerKeyNote env (keyRoot + (interval : ℤ) + octaveOffset) time 0.2
            else []
          else []
        else []
      (ui, drumEvs ++ bassEvs ++ keysEvs)

/-- Transport state owned by the scheduler. -/
structure Transport where
  nextNoteTime : ℚ
  currentStep : ℤ
  currentChordIndex : ℕ
  deriving DecidableEq, Repr

/-- Steps per bar. -/
def STEPS_PER_BAR : ℤ := 16

/-- Advance the transport by one step at the bpm read at call time: add one
step duration to nextNoteTime, increment the step, wrap 15 to 0 incrementing
the chord index. -/
def nextNote (bpm : ℚ) (st : Transport) : Transport :=
  let secondsPerBeat := 60 / bpm
  let secondsPerStep := secondsPerBeat / 4
  let nextNoteTime := st.nextNoteTime + secondsPerStep
  let currentStep := st.currentStep + 1
  if currentStep = STEPS_PER_BAR then
    { nextNoteTime := nextNoteTime, currentStep := 0,
      currentChordIndex := st.currentChordIndex + 1 }
  else
    { nextNoteTime := nextNoteTime, currentStep := currentStep,
      currentChordIndex := st.currentChordIndex }

/-- Lookahead window in seconds (100 ms). -/
def scheduleAheadTime : ℚ := 0.1

/-- Lookahead loop body: while nextNoteTime is below now plus the lookahead
window, render the step at nextNoteTime, append its events, and advance. The
engine clock value is the one sampled for this batch; bpmAt k is the bpm
input read at the k-th advance, modelling the fresh read of the bpm field on
every advance. Fuel bounds the recursion depth of the embedding only. -/
def schedulerLoop (env : Env) (chordProgression : List Chord) (now : ℚ)
    (bpmAt : ℕ → ℚ) : ℕ → ℕ → Transport → List Ev → Transport × List Ev
  | 0, _, st, evs => (st, evs)
  | fuel + 1, k, st, evs =>
    if st.nextNoteTime < now + scheduleAheadTime then
      schedulerLoop env chordProgression now bpmAt fuel (k + 1) (nextNote (bpmAt k) st)
        (evs ++ (playStep env st.currentStep st.currentChordIndex chordProgression st.nextNoteTime).2)
    else (st, evs)

/-- Note-off sweep sent on Stop: all pitches 0 to 126 on status bytes 0x89,
0x8A and 0x8B, sent without timestamps. -/
def panicSweep : List Ev :=
  (List.range 127).flatMap fun i =>
    [Ev.midi 0x89 (i : ℤ) 0 none, Ev.midi 0x8A (i : ℤ) 0 none,
     Ev.midi 0x8B (i : ℤ) 0 none]

/-- Mutable flags and display fields touched by the stop handler. -/
structure AppState where
  isPlaying : Bool
  lcdChord : String
  beatLed : String
  deriving DecidableEq, Repr

/-- Stop click handler: clear the playing flag, reset the display, and send
the panic sweep whenever a MIDI output is connected; the handler does not
inspect the previous state. -/
def stopClick (midiConnected : Bool) (_st : AppState) : AppState × List Ev :=
  ({ isPlaying := false, lcdChord := "--", beatLed := "beat-indicator" },
   if midiConnected then panicSweep else [])

/-- Transport primed by the play handler: one bar of count-in and a start
time slightly in the future. -/
def playClickTransport (engineNow : ℚ) : Transport :=
  { nextNoteTime := engineNow + 0.1, currentStep := -16, currentChordIndex := 0 }

/-- Environment with the internal sink selected and every part muted; used to
instantiate universally quantified results at a concrete point. -/
def envDefault : Env := ⟨"internal", false, "basic", "root", "chords", 0, 0, 0, 0, 0⟩

/-- Environment rendering only the root-style bass part over MIDI, with both
clocks sampled at zero. -/
def rootEnv : Env := ⟨"midi", true, "mute", "root", "mute", 0, 0, 0, 0, 0⟩

/-- Environment rendering only the stabs keys part over MIDI. -/
def stabsEnv (w e : ℚ) : Env := ⟨"midi", true, "mute", "mute", "stabs", w, e, 0, 0, 0⟩

/-- Environment rendering only the four-on-the-floor drum part over MIDI. -/
def fourEnv : Env := ⟨"midi", true, "four", "mute", "mute", 0, 0, 0, 0, 0⟩

/-- Expected parse results for every root spelling of the note table, in both
major and minor form: symbol, pitch class, triad intervals. -/
def expectedChords : List (String × ℕ × List ℕ) :=
  [("C", 0, [0,4,7]), ("Cm", 0, [0,3,7]),
   ("C#", 1, [0,4,7]), ("C#m", 1, [0,3,7]),
   ("Db", 1, [0,4,7]), ("Dbm", 1, [0,3,7]),
   ("D", 2, [0,4,7]), ("Dm", 2, [0,3,7]),
   ("D#", 3, [0,4,7]), ("D#m", 3, [0,3,7]),
   ("Eb", 3, [0,4,7]), ("Ebm", 3, [0,3,7]),
   ("E", 4, [0,4,7]), ("Em", 4, [0,3,7]),
   ("F", 5, [0,4,7]), ("Fm", 5, [0,3,7]),
   ("F#", 6, [0,4,7]), ("F#m", 6, [0,3,7]),
   ("Gb", 6, [0,4,7]), ("Gbm", 6, [0,3,7]),
   ("G", 7, [0,4,7]), ("Gm", 7, [0,3,7]),
   ("G#", 8, [0,4,7]), ("G#m", 8, [0,3,7]),
   ("Ab", 8, [0,4,7]), ("Abm", 8, [0,3,7]),
   ("A", 9, [0,4,7]), ("Am", 9, [0,3,7]),
   ("A#", 10, [0,4,7]), ("A#m", 10, [0,3,7]),
   ("Bb", 10, [0,4,7]), ("Bbm", 10, [0,3,7]),
   ("B", 11, [0,4,7]), ("Bm", 11, [0,3,7])]

/-- Root prefix length of a chord symbol as the spec words it: 2 when the
second character is a sharp sign or a letter b of either case, else 1.
Stated independently of parseChord so the parser can be compared against the
spec-level description on every input. -/
def specRootLen (s : String) : ℕ :=
  match s.toList with
  | _ :: c2 :: _ => if c2 = '#' ∨ c2.toLower = 'b' then 2 else 1
  | _ => 1

/-- Normalized root spelling of a chord symbol as the spec words it: the
first character uppercased, followed by the lowercased second character when
that second character is a sharp sign or a letter b of either case. -/
def specNormRoot (s : String) : String :=
  match s.toList with
  | [] => ""
  | [c] => String.mk [c.toUpper]
  | c :: c2 :: _ =>
    if c2 = '#' ∨ c2.toLower = 'b' then String.mk [c.toUpper, c2.toLower]
    else String.mk [c.toUpper]

/-- Residual of a chord symbol after its root prefix, lowercased. -/
def specResidual (s : String) : List Char :=
  (s.toList.drop (specRootLen s)).map Char.toLower

/-- Minor-quality rule as the spec words it: the lowercased residual contains
the letter m but not the substring maj. -/
def specMinor (s : String) : Prop :=
  hasSub ['m'] (specResidual s) ∧ ¬ hasSub ['m', 'a', 'j'] (specResidual s)

instance (s : String) : Decidable (specMinor s) := by
  unfold specMinor
  infer_instance

/-- Advancing past a step whose successor is not 16 increments the step by
one, keeps the chord index, and adds one step duration. -/
theorem nextNote_no_wrap (bpm t : ℚ) (ci : ℕ) (s : ℤ) (h : s + 1 ≠ 16) :
    nextNote bpm ⟨t, s, ci⟩ = ⟨t + 60 / bpm / 4, s + 1, ci⟩ := by
  simp only [nextNote, STEPS_PER_BAR]
  rw [if_neg h]

/-- Advancing from step 15 wraps to step 0 and increments the chord index. -/
theorem nextNote_wrap15 (bpm t : ℚ) (ci : ℕ) :
    nextNote bpm ⟨t, 15, ci⟩ = ⟨t + 60 / bpm / 4, 0, ci + 1⟩ := by
  simp [nextNote, STEPS_PER_BAR]

/-- Iterated advances that never reach step 16 shift the step by the count
and leave the chord index alone. -/
theorem iterate_no_wrap (bpm : ℚ) (k : ℕ) :
    ∀ (t : ℚ) (ci : ℕ) (s : ℤ), s + k ≤ 15 →
      (nextNote bpm)^[k] ⟨t, s, ci⟩ = ⟨t + k * (60 / bpm / 4), s + k, ci⟩ := by
  induction k with
  | zero => intro t ci s h; simp
  | succ n ih =>
      intro t ci s h
      rw [Function.iterate_succ_apply, nextNote_no_wrap bpm t ci s (by omega),
        ih _ _ _ (by omega)]
      have h1 : t + 60 / bpm / 4 + (n : ℚ) * (60 / bpm / 4)
          = t + ((n : ℚ) + 1) * (60 / bpm / 4) := by ring
      have h2 : s + 1 + (n : ℤ) = s + ((n : ℤ) + 1) := by omega
      simp [Transport.mk.injEq, h1, h2]

/-- Indexing the all-zero drum row yields 0 at every position. -/
theorem zeroRow_getD (n : ℕ) :
    (([0,0,0,0, 0,0,0,0, 0,0,0,0, 0,0,0,0] : List ℕ)[n]?).getD 0 = 0 := by
  rcases n with _|_|_|_|_|_|_|_|_|_|_|_|_|_|_|_|n <;> rfl

/-- Association-list lookup with default 0 stays below 12 when every stored
value does. -/
theorem lookup_getD_lt (l : List (String × ℕ)) (hb : ∀ p ∈ l, p.2 < 12) (k : String) :
    (l.lookup k).getD 0 < 12 := by
  induction l with
  | nil => simp [List.lookup]
  | cons p t ih =>
      simp only [List.lookup]
      split
      · exact hb p (by simp)
      · exact ih (fun q hq => hb q (by simp [hq]))

/-- The root pitch class parseChord computes is exactly the table lookup of
the spec-level normalized root, defaulted to 0. -/
theorem parseChord_rootVal_eq (s : String) :
    (parseChord s).rootVal = (NOTES.lookup (specNormRoot s)).getD 0 := by
  simp only [parseChord, specNormRoot]
  obtain ⟨cs, hcs⟩ : ∃ cs, s.toList = cs := ⟨_, rfl⟩
  rw [hcs]
  rcases cs with _ | ⟨c, _ | ⟨c2, rest⟩⟩
  · simp
  · simp
  · by_cases hc : c2 = '#' ∨ c2.toLower = 'b' <;> simp [hc]

/-- The triad parseChord computes is minor exactly when the spec-level
minor-quality rule holds of the input. -/
theorem parseChord_intervals_eq (s : String) :
    (parseChord s).intervals = if specMinor s then [0, 3, 7] else [0, 4, 7] := by
  simp only [parseChord, specMinor, specResidual, specRootLen]
  obtain ⟨cs, hcs⟩ : ∃ cs, s.toList = cs := ⟨_, rfl⟩
  simp only [hcs]
  rcases cs with _ | ⟨c, _ | ⟨c2, rest⟩⟩
  · simp only [List.length_nil, List.drop, List.map]
    split_ifs <;> simp_all
  · simp only [List.length_cons, List.length_nil, List.drop, List.map]
    split_ifs <;> simp_all
  · by_cases hc : c2 = '#' ∨ c2.toLower = 'b' <;>
      · simp only [hc, List.length_cons, List.drop, List.map, if_true, if_false,
          gt_iff_lt, Nat.lt_add_one_iff, le_add_iff_nonneg_left, zero_le, ite_true,
          Nat.succ_lt_succ_iff, Nat.zero_lt_succ, List.getD_cons_succ, List.getD_cons_zero]
        split_ifs <;> simp_all

/-- C2: every MIDI timestamp is wall-now plus the engine-clock delta of the
event, with the two clocks sampled together in the environment: an event at
engine-now gets exactly wall-now, and otherwise the timestamp moves linearly
with the delta (scaled by the 1000 ms per second unit conversion). -/
theorem midiTimestamp_anchored :
    (∀ env : Env, getMidiTime env env.engineNow = env.wallNow) ∧
    (∀ (env : Env) (engineTime : ℚ),
      getMidiTime env engineTime - env.wallNow = (engineTime - env.engineNow) * 1000) := by
  constructor <;> intros <;> simp [getMidiTime]

/-- C1: the lookahead loop stops as soon as nextNoteTime reaches now plus the
fixed 100 ms window, and otherwise renders the step at nextNoteTime, appends
its events, and advances by exactly 60/bpm/4 seconds at the bpm read fresh at
that advance; events already in the list are passed through untouched. -/
theorem scheduler_lookahead_contract :
    scheduleAheadTime = 1 / 10 ∧
    (∀ (env : Env) (prog : List Chord) (now : ℚ) (bpmAt : ℕ → ℚ) (fuel k : ℕ)
        (st : Transport) (evs : List Ev),
      ¬ st.nextNoteTime < now + scheduleAheadTime →
      schedulerLoop env prog now bpmAt fuel k st evs = (st, evs)) ∧
    (∀ (env : Env) (prog : List Chord) (now : ℚ) (bpmAt : ℕ → ℚ) (fuel k : ℕ)
        (st : Transport) (evs : List Ev),
      st.nextNoteTime < now + scheduleAheadTime →
      schedulerLoop env prog now bpmAt (fuel + 1) k st evs =
        schedulerLoop env prog now bpmAt fuel (k + 1) (nextNote (bpmAt k) st)
          (evs ++ (playStep env st.currentStep st.currentChordIndex prog st.nextNoteTime).2)) ∧
    (∀ (bpm : ℚ) (st : Transport),
      (nextNote bpm st).nextNoteTime = st.nextNoteTime + 60 / bpm / 4) ∧
    (∀ (env : Env) (prog : List Chord) (now : ℚ) (bpmAt : ℕ → ℚ) (fuel k : ℕ)
        (st : Transport) (evs : List Ev), ∃ extra,
      (schedulerLoop env prog now bpmAt fuel k st evs).2 = evs ++ extra) := by
  refine ⟨by norm_num [scheduleAheadTime], ?_, ?_, ?_, ?_⟩
  · intro env prog now bpmAt fuel k st evs h
    cases fuel <;> simp [schedulerLoop, h]
  · intro env prog now bpmAt fuel k st evs h
    simp [schedulerLoop, h]
  · intro bpm st
    simp only [nextNote]
    split <;> rfl
  · intro env prog now bpmAt fuel
    induction fuel with
    | zero => intro k st evs; exact ⟨[], by simp [schedulerLoop]⟩
    | succ n ih =>
        intro k st evs
        by_cases h : st.nextNoteTime < now + scheduleAheadTime
        · obtain ⟨extra, hx⟩ := ih (k + 1) (nextNote (bpmAt k) st)
            (evs ++ (playStep env st.currentStep st.currentChordIndex prog st.nextNoteTime).2)
          refine ⟨(playStep env st.currentStep st.currentChordIndex prog st.nextNoteTime).2 ++ extra, ?_⟩
          simp only [schedulerLoop]
          rw [if_pos h, hx, List.append_assoc]
        · exact ⟨[], by simp [schedulerLoop, h]⟩

/-- Witness for the lookahead contract at concrete inputs: a transport past
the window halts the loop unchanged; one inside the window takes exactly the
render-then-advance step; the advance adds 60/120/4 seconds at 120 bpm. -/
theorem scheduler_lookahead_contract_witness :
    schedulerLoop envDefault [] 0 (fun _ => 120) 5 0 ⟨1, 0, 0⟩ [] = (⟨1, 0, 0⟩, []) ∧
    schedulerLoop envDefault [] 0 (fun _ => 120) 1 0 ⟨0, 0, 0⟩ [] =
      schedulerLoop envDefault [] 0 (fun _ => 120) 0 1 (nextNote 120 ⟨0, 0, 0⟩)
        ([] ++ (playStep envDefault 0 0 [] 0).2) ∧
    (nextNote 120 ⟨0, 0, 0⟩).nextNoteTime = 0 + 60 / 120 / 4 := by
  refine ⟨?_, ?_, ?_⟩
  · exact scheduler_lookahead_contract.2.1 envDefault [] 0 (fun _ => 120) 5 0 ⟨1, 0, 0⟩ []
      (by norm_num [scheduleAheadTime])
  · exact scheduler_lookahead_contract.2.2.1 envDefault [] 0 (fun _ => 120) 0 0 ⟨0, 0, 0⟩ []
      (by norm_num [scheduleAheadTime])
  · exact scheduler_lookahead_contract.2.2.2.1 120 ⟨0, 0, 0⟩

/-- C3: from the count-in start state, 16 advances reach step 0 with the
chord index still 0; while the step is negative the renderer emits exactly
one click when the shifted step is a multiple of 4 and nothing else (no drum,
bass or keys events); those steps are exactly -16, -12, -8, -4; and the click
is marked downbeat precisely at step -16. -/
theorem countIn_trace :
    (∀ bpm t : ℚ, (nextNote bpm)^[16] ⟨t, -16, 0⟩ = ⟨t + 16 * (60 / bpm / 4), 0, 0⟩) ∧
    (∀ (env : Env) (ci : ℕ) (prog : List Chord) (t : ℚ) (s : ℤ), s < 0 →
      (playStep env s ci prog t).2 =
        if (s + 16) % 4 = 0 then [Ev.metronome t ((s + 16) == 0)] else []) ∧
    ((List.range 16).map (fun k => (k : ℤ) - 16)).filter (fun s => (s + 16) % 4 == 0) =
      [-16, -12, -8, -4] ∧
    (∀ s : ℤ, ((s + 16) == 0) = true ↔ s = -16) := by
  refine ⟨?_, ?_, by decide, ?_⟩
  · intro bpm t
    have h := iterate_no_wrap bpm 16 t 0 (-16) (by omega)
    simpa using h
  · intro env ci prog t s hs
    simp [playStep, hs]
  · intro s
    simp only [beq_iff_eq]
    omega

/-- Witness for the count-in behaviour at the concrete start step -16: 16
advances at 120 bpm land on step 0, chord index 0, and the rendered events at
step -16 are a single downbeat click. -/
theorem countIn_trace_witness :
    (nextNote 120)^[16] ⟨2, -16, 0⟩ = ⟨2 + 16 * (60 / 120 / 4), 0, 0⟩ ∧
    (playStep envDefault (-16) 0 [] 0).2 =
      (if ((-16 : ℤ) + 16) % 4 = 0 then [Ev.metronome 0 ((((-16 : ℤ) + 16)) == 0)] else []) := by
  exact ⟨countIn_trace.1 120 2, countIn_trace.2.1 envDefault 0 [] 0 (-16) (by norm_num)⟩

/-- C4: during steady playback the step sequence has period 16 (16 advances
restore the step and increment the chord index exactly once); each advance
off the wrap point increments the step by one and keeps the chord index; the
15 to 0 wrap is the only chord-index increment; and the chord index never
decreases across an advance. -/
theorem steady_playback_period16 :
    (∀ (bpm t : ℚ) (ci : ℕ) (s : ℤ), 0 ≤ s → s < 16 →
      ∃ u : ℚ, (nextNote bpm)^[16] ⟨t, s, ci⟩ = ⟨u, s, ci + 1⟩) ∧
    (∀ (bpm : ℚ) (st : Transport), st.currentStep + 1 ≠ 16 →
      (nextNote bpm st).currentStep = st.currentStep + 1 ∧
      (nextNote bpm st).currentChordIndex = st.currentChordIndex) ∧
    (∀ (bpm : ℚ) (st : Transport), st.currentStep = 15 →
      (nextNote bpm st).currentStep = 0 ∧
      (nextNote bpm st).currentChordIndex = st.currentChordIndex + 1) ∧
    (∀ (bpm : ℚ) (st : Transport),
      st.currentChordIndex ≤ (nextNote bpm st).currentChordIndex) := by
  refine ⟨?_, ?_, ?_, ?_⟩
  · intro bpm t ci s h0 h1
    have h16 : (16 : ℕ) = s.toNat + (1 + (15 - s).toNat) := by omega
    rw [h16, Function.iterate_add_apply, Function.iterate_add_apply]
    have e1 : (nextNote bpm)^[(15 - s).toNat] ⟨t, s, ci⟩
        = ⟨t + ((15 - s).toNat : ℚ) * (60 / bpm / 4), 15, ci⟩ := by
      have h5 := iterate_no_wrap bpm (15 - s).toNat t ci s (by omega)
      rw [h5]
      have h6 : s + ((15 - s).toNat : ℤ) = 15 := by omega
      rw [h6]
    rw [e1, Function.iterate_one, nextNote_wrap15,
      iterate_no_wrap bpm s.toNat _ (ci + 1) 0 (by omega)]
    have h3 : (0 : ℤ) + (s.toNat : ℤ) = s := by omega
    rw [h3]
    exact ⟨_, rfl⟩
  · intro bpm st h
    constructor <;> simp [nextNote, STEPS_PER_BAR, h]
  · intro bpm st h
    constructor <;> simp [nextNote, STEPS_PER_BAR, h]
  · intro bpm st
    simp only [nextNote, STEPS_PER_BAR]
    split <;> simp

/-- Witness for steady-playback periodicity at step 3, chord index 5: after
16 advances the step is again 3 and the chord index is 6. -/
theorem steady_playback_period16_witness :
    (∃ u : ℚ, (nextNote 120)^[16] ⟨0, 3, 5⟩ = ⟨u, 3, 5 + 1⟩) ∧
    (nextNote 120 ⟨0, 15, 5⟩).currentStep = 0 ∧
    (nextNote 120 ⟨0, 15, 5⟩).currentChordIndex = 5 + 1 := by
  refine ⟨steady_playback_period16.1 120 0 5 3 (by norm_num) (by norm_num), ?_⟩
  exact steady_playback_period16.2.2.1 120 ⟨0, 15, 5⟩ rfl

/-- Counterexample to C5 as stated: the symbol Gmaj does not match the
claimed grammar (the residual is maj, not a bare m), yet parseChord returns
pitch class 7, not the claimed default of pitch class 0 with major quality. -/
theorem parseChord_garbage_cex :
    ¬ ((parseChord "Gmaj").rootVal = 0 ∧ (parseChord "Gmaj").intervals = [0, 4, 7]) := by
  decide

/-- C5 amended, universally: for every input string, when the table holds the
spec-level normalized root the parsed pitch class is that table value
(covering case variants such as c, gm, dB), the root defaults to pitch class
0 exactly when the normalized prefix is absent from the table, and the triad
is minor precisely when the lowercased residual contains m without maj; the
table values themselves match the expected pitch classes on all 34 canonical
spellings, and concrete non-grammar points behave as stated (Gmaj keeps
pitch class 7 major, Xm gets pitch class 0 minor, the empty string gets
pitch class 0 major). -/
theorem parseChord_table_correct :
    (∀ (s : String) (v : ℕ),
      NOTES.lookup (specNormRoot s) = some v → (parseChord s).rootVal = v) ∧
    (∀ s : String,
      NOTES.lookup (specNormRoot s) = none → (parseChord s).rootVal = 0) ∧
    (∀ s : String,
      (parseChord s).intervals = if specMinor s then [0, 3, 7] else [0, 4, 7]) ∧
    (∀ p ∈ expectedChords,
      (parseChord p.1).rootVal = p.2.1 ∧ (parseChord p.1).intervals = p.2.2) ∧
    (parseChord "c" = ⟨"C", 0, [0, 4, 7]⟩ ∧
     parseChord "gm" = ⟨"Gm", 7, [0, 3, 7]⟩ ∧
     parseChord "dB" = ⟨"Db", 1, [0, 4, 7]⟩) ∧
    parseChord "Gmaj" = ⟨"Gmaj", 7, [0, 4, 7]⟩ ∧
    parseChord "Xm" = ⟨"Xm", 0, [0, 3, 7]⟩ ∧
    parseChord "" = ⟨"", 0, [0, 4, 7]⟩ := by
  refine ⟨?_, ?_, parseChord_intervals_eq, by decide, by decide, by decide, by decide, by decide⟩
  · intro s v h
    rw [parseChord_rootVal_eq, h]
    rfl
  · intro s h
    rw [parseChord_rootVal_eq, h]
    rfl

/-- Witness for the parse rules at concrete symbols: the lowercase variant gm
normalizes to the table entry G giving pitch class 7, Hq has no table root
and defaults to 0, and the canonical symbol G parses to pitch class 7 with
the major triad. -/
theorem parseChord_table_correct_witness :
    (parseChord "gm").rootVal = 7 ∧
    (parseChord "Hq").rootVal = 0 ∧
    (parseChord "G").rootVal = 7 ∧ (parseChord "G").intervals = [0, 4, 7] := by
  exact ⟨parseChord_table_correct.1 "gm" 7 (by decide),
    parseChord_table_correct.2.1 "Hq" (by decide),
    (parseChord_table_correct.2.2.2.1 ("G", 7, [0, 4, 7]) (by decide)).1,
    (parseChord_table_correct.2.2.2.1 ("G", 7, [0, 4, 7]) (by decide)).2⟩

/-- Counterexample to C6 as stated: with an empty progression and the
four-on-the-floor drum style, step 0 renders no events at all even though
the drum row would hit (voice 1 at step 0), and the same environment does
emit drum events once a chord is present. -/
theorem emptyProgression_drums_cex :
    (playStep fourEnv 0 0 [] 0).2 = [] ∧
    ((DRUM_PATTERNS.lookup "four").getD []).getD 0 0 = 1 ∧
    (playStep fourEnv 0 0 [parseChord "C"] 0).2 ≠ [] := by
  refine ⟨by decide, by decide, ?_⟩
  have hC : parseChord "C" = ⟨"C", 0, [0, 4, 7]⟩ := by decide
  rw [hC]
  simp [playStep, fourEnv, DRUM_PATTERNS, List.lookup, getMidiTime]

/-- C6 amended: with an empty progression, a step at or past 0 renders no
events whatsoever, drums included, and the captured chord text for the
display is the placeholder rather than a chord name. -/
theorem emptyProgression_renders_nothing :
    ∀ (env : Env) (ci : ℕ) (t : ℚ) (s : ℤ), 0 ≤ s →
      playStep env s ci [] t = (⟨t, "--", s⟩, []) := by
  intro env ci t s h
  have h2 : ¬ s < 0 := not_lt.mpr h
  simp [playStep, h2]

/-- Witness for the empty-progression no-op at step 5. -/
theorem emptyProgression_renders_nothing_witness :
    playStep envDefault 5 3 [] 2 = (⟨2, "--", 5⟩, []) := by
  exact emptyProgression_renders_nothing envDefault 3 2 5 (by norm_num)

/-- Counterexample to C7 as stated: a second Stop issued right after a first
one (so while already stopped) emits the full panic sweep again, which is
nonempty, so the sweep does not happen exactly once and Stop while Stopped
is not a no-op. -/
theorem stop_not_idempotent_cex :
    (stopClick true (stopClick true ⟨true, "C", "beat-indicator beat-active"⟩).1).2 = panicSweep ∧
    panicSweep ≠ [] := by
  exact ⟨rfl, by decide⟩

/-- C7 amended: every Stop click leaves the transport stopped and is
idempotent on the resulting state, but each click with a connected MIDI
output emits the panic sweep anew; the sweep covers every pitch 0..126 on
the three channel status bytes. -/
theorem stop_amended :
    (∀ (conn : Bool) (st : AppState), ((stopClick conn st).1).isPlaying = false) ∧
    (∀ st : AppState, (stopClick true st).2 = panicSweep) ∧
    (∀ (conn : Bool) (st : AppState),
      (stopClick conn (stopClick conn st).1).1 = (stopClick conn st).1) ∧
    (∀ i : ℕ, i < 127 →
      Ev.midi 0x89 (i : ℤ) 0 none ∈ panicSweep ∧
      Ev.midi 0x8A (i : ℤ) 0 none ∈ panicSweep ∧
      Ev.midi 0x8B (i : ℤ) 0 none ∈ panicSweep) := by
  refine ⟨fun conn st => rfl, fun st => rfl, fun conn st => rfl, ?_⟩
  intro i hi
  refine ⟨?_, ?_, ?_⟩ <;>
    · simp only [panicSweep, List.mem_flatMap]
      exact ⟨i, List.mem_range.mpr hi, by simp⟩

/-- Witness for the amended Stop behaviour at concrete inputs: stopping from
a playing state clears the flag, and pitch 0 occurs in the sweep. -/
theorem stop_amended_witness :
    ((stopClick true ⟨true, "C", "led"⟩).1).isPlaying = false ∧
    Ev.midi 0x89 (0 : ℤ) 0 none ∈ panicSweep := by
  exact ⟨stop_amended.1 true ⟨true, "C", "led"⟩, (stop_amended.2.2.2 0 (by norm_num)).1⟩

/-- C8: with bass style root at step 0, chord G renders bass pitch 55, chord
B renders 59, chord C sharp renders 49 (each as a MIDI on at velocity 100
with the off 200 ms later), and any base pitch below 48 is folded up by 12
by the bass register fold. -/
theorem bass_root_pitch :
    (playStep rootEnv 0 0 [parseChord "G"] 0).2 =
      [Ev.midi 0x9A 55 100 (some 0), Ev.midi 0x8A 55 0 (some 200)] ∧
    (playStep rootEnv 0 0 [parseChord "B"] 0).2 =
      [Ev.midi 0x9A 59 100 (some 0), Ev.midi 0x8A 59 0 (some 200)] ∧
    (playStep rootEnv 0 0 [parseChord "C#"] 0).2 =
      [Ev.midi 0x9A 49 100 (some 0), Ev.midi 0x8A 49 0 (some 200)] ∧
    (∀ n : ℤ, n < 48 → foldBass n = n + 12) := by
  have hG : parseChord "G" = ⟨"G", 7, [0, 4, 7]⟩ := by decide
  have hB : parseChord "B" = ⟨"B", 11, [0, 4, 7]⟩ := by decide
  have hCs : parseChord "C#" = ⟨"C#", 1, [0, 4, 7]⟩ := by decide
  refine ⟨?_, ?_, ?_, ?_⟩
  · rw [hG]; simp [playStep, rootEnv, DRUM_PATTERNS, List.lookup, foldBass, getMidiTime]
  · rw [hB]; simp [playStep, rootEnv, DRUM_PATTERNS, List.lookup, foldBass, getMidiTime]
  · rw [hCs]; simp [playStep, rootEnv, DRUM_PATTERNS, List.lookup, foldBass, getMidiTime]
  · intro n h
    simp only [foldBass]
    split_ifs <;> omega

/-- Witness for the bass fold-up branch at the concrete base pitch 40. -/
theorem bass_root_pitch_witness : foldBass 40 = 40 + 12 := by
  exact bass_root_pitch.2.2.2 40 (by norm_num)

/-- Counterexample to C9 as stated: for keys style stabs at step 4 on chord
C, every emitted note-on carries velocity 90; the velocity-100 note-on the
claim describes is not among the events. -/
theorem keys_stabs_velocity_cex :
    (playStep (stabsEnv 0 0) 4 0 [parseChord "C"] 0).2 =
      [Ev.midi 0x9B 60 90 (some 0), Ev.midi 0x8B 60 0 (some 200),
       Ev.midi 0x9B 64 90 (some 0), Ev.midi 0x8B 64 0 (some 200),
       Ev.midi 0x9B 67 90 (some 0), Ev.midi 0x8B 67 0 (some 200)] ∧
    Ev.midi 0x9B 60 100 (some 0) ∉ (playStep (stabsEnv 0 0) 4 0 [parseChord "C"] 0).2 := by
  have hC : parseChord "C" = ⟨"C", 0, [0, 4, 7]⟩ := by decide
  have hlist : (playStep (stabsEnv 0 0) 4 0 [parseChord "C"] 0).2 =
      [Ev.midi 0x9B 60 90 (some 0), Ev.midi 0x8B 60 0 (some 200),
       Ev.midi 0x9B 64 90 (some 0), Ev.midi 0x8B 64 0 (some 200),
       Ev.midi 0x9B 67 90 (some 0), Ev.midi 0x8B 67 0 (some 200)] := by
    rw [hC]
    simp [playStep, stabsEnv, triggerKeyNote, DRUM_PATTERNS, List.lookup, foldKeys, getMidiTime]
    norm_num
  refine ⟨hlist, ?_⟩
  rw [hlist]
  simp

/-- C9 amended: with keys style stabs, steps 4 and 12 fire one MIDI on/off
pair per interval of the current chord from the folded keys root, at
velocity 90 (not 100) with the off 0.2 s times 1000 = 200 ms after the on;
at every other non-negative step the renderer emits nothing. -/
theorem keys_stabs_amended :
    (∀ (c : Chord) (w e t : ℚ) (s : ℤ), s = 4 ∨ s = 12 →
      (playStep (stabsEnv w e) s 0 [c] t).2 =
        c.intervals.flatMap (fun i =>
          [Ev.midi 0x9B (foldKeys (60 + (c.rootVal : ℤ)) + (i : ℤ)) 90
            (some (getMidiTime (stabsEnv w e) t)),
           Ev.midi 0x8B (foldKeys (60 + (c.rootVal : ℤ)) + (i : ℤ)) 0
            (some (getMidiTime (stabsEnv w e) t + 0.2 * 1000))])) ∧
    (0.2 : ℚ) * 1000 = 200 ∧
    (∀ (c : Chord) (w e t : ℚ) (s : ℤ), 0 ≤ s → s ≠ 4 → s ≠ 12 →
      (playStep (stabsEnv w e) s 0 [c] t).2 = []) := by
  refine ⟨?_, by norm_num, ?_⟩
  · intro c w e t s h
    rcases h with rfl | rfl <;>
      simp [playStep, stabsEnv, triggerKeyNote, DRUM_PATTERNS, List.lookup]
  · intro c w e t s h0 h4 h12
    have hn : ¬ s < 0 := not_lt.mpr h0
    simp [playStep, stabsEnv, hn, h4, h12, DRUM_PATTERNS, List.lookup, zeroRow_getD]

/-- Witness for the amended stabs behaviour at the concrete chord C, clocks
1 and 2, time 3, step 12. -/
theorem keys_stabs_amended_witness :
    (playStep (stabsEnv 1 2) 12 0 [(⟨"C", 0, [0, 4, 7]⟩ : Chord)] 3).2 =
      (⟨"C", 0, [0, 4, 7]⟩ : Chord).intervals.flatMap (fun i =>
        [Ev.midi 0x9B (foldKeys (60 + ((⟨"C", 0, [0, 4, 7]⟩ : Chord).rootVal : ℤ)) + (i : ℤ)) 90
          (some (getMidiTime (stabsEnv 1 2) 3)),
         Ev.midi 0x8B (foldKeys (60 + ((⟨"C", 0, [0, 4, 7]⟩ : Chord).rootVal : ℤ)) + (i : ℤ)) 0
          (some (getMidiTime (stabsEnv 1 2) 3 + 0.2 * 1000))]) := by
  exact keys_stabs_amended.1 ⟨"C", 0, [0, 4, 7]⟩ 1 2 3 12 (Or.inr rfl)

/-- C10: parseChord only ever produces root pitch classes below 12, so the
bass base pitch 60 + rootVal - 12 lies in [48, 59], the keys root 60 +
rootVal lies in [60, 71], all three fold branches are unreachable, and both
folds are the identity there, leaving bass pitch 48 + rootVal and keys root
60 + rootVal. -/
theorem rootVal_bounded_folds_noop :
    (∀ s : String, (parseChord s).rootVal < 12) ∧
    (∀ rv : ℕ, rv < 12 →
      ¬ ((60 : ℤ) + (rv : ℤ) - 12 < 48) ∧
      ¬ ((60 : ℤ) + (rv : ℤ) - 12 > 72) ∧
      ¬ ((60 : ℤ) + (rv : ℤ) > 72) ∧
      foldBass (60 + (rv : ℤ) - 12) = 48 + (rv : ℤ) ∧
      foldKeys (60 + (rv : ℤ)) = 60 + (rv : ℤ)) := by
  constructor
  · intro s
    simp only [parseChord]
    exact lookup_getD_lt NOTES (by decide) _
  · intro rv h
    refine ⟨by omega, by omega, by omega, ?_, ?_⟩
    · simp only [foldBass]
      split_ifs <;> omega
    · simp only [foldKeys]
      split_ifs <;> omega

/-- Witness for the range facts at the concrete pitch class 7: both folds
are the identity and the bass pitch is 55. -/
theorem rootVal_bounded_folds_noop_witness :
    foldBass (60 + ((7 : ℕ) : ℤ) - 12) = 48 + ((7 : ℕ) : ℤ) ∧
    foldKeys (60 + ((7 : ℕ) : ℤ)) = 60 + ((7 : ℕ) : ℤ) := by
  exact ⟨(rootVal_bounded_folds_noop.2 7 (by norm_num)).2.2.2.1,
    (rootVal_bounded_folds_noop.2 7 (by norm_num)).2.2.2.2⟩
